import Mathlib

/-!
Shallow embedding of the command-dispatch and persistence core of the
Writher repository (src/database.py, src/assistant.py, src/notifier.py,
src/locales.py).

Modelling conventions:
* Timestamps (`created_at`, `updated_at`, `dt`, `remind_at`) are ISO-8601
  second-precision local-time strings in the source; such strings compare
  lexicographically exactly as they compare chronologically, so they are
  embedded as `Nat` (seconds), and every SQL comparison on them becomes a
  `Nat` comparison.  The empty string (the dispatcher's default for a
  missing datetime argument) is the lexicographic minimum and maps to `0`.
* Each SQLite table becomes a `List` of records inside a `Store`
  structure; `AUTOINCREMENT` primary keys become explicit `next*Id`
  counters.  `ORDER BY ... ASC/DESC` becomes `List.insertionSort` with the
  corresponding key comparison, `WHERE` becomes `List.filter`,
  `fetchone` on a keyed lookup becomes `List.find?`, and
  `UPDATE ... WHERE id=?` becomes `List.map` guarded on the id.
* Every operation of database.py runs entirely inside `with _lock:`, so a
  store operation is one atomic step; operations are pure state
  transformers `Store → α × Store`, and `datetime.now()` is passed in as
  an explicit `now : Nat` argument.
* A list note's `content` column holds JSON produced by `json.dumps` of a
  list of `{"item": ..., "checked": ...}` dicts and is read back with
  `json.loads`; that round-trip is the identity, so `content` is embedded
  as structured data (`NoteContent`), and the `note_type` column (which
  the code always writes consistently with the content shape) is derived
  from the shape.
-/

namespace Writher

/-- One `{item, checked}` entry of a list note's content. -/
structure ListEntry where
  item : String
  checked : Bool
deriving DecidableEq

/-- Content of a note: free text for `note_type='text'`, an ordered entry
sequence for `note_type='list'`. -/
inductive NoteContent where
  | text (s : String)
  | list (entries : List ListEntry)
deriving DecidableEq

/-- A row of the `notes` table. -/
structure Note where
  id : Nat
  title : String
  content : NoteContent
  category : String
  created_at : Nat
  updated_at : Nat
deriving DecidableEq

/-- The `note_type` column, derived from the content shape (the code
always writes `'text'` with free text and `'list'` with serialized
entries). -/
def Note.note_type (n : Note) : String :=
  match n.content with
  | .text _ => "text"
  | .list _ => "list"

/-- A row of the `appointments` table (`notified` is the 0/1 integer
column as a Bool). -/
structure Appointment where
  id : Nat
  title : String
  dt : Nat
  description : String
  notified : Bool
  created_at : Nat
deriving DecidableEq

/-- A row of the `reminders` table. -/
structure Reminder where
  id : Nat
  message : String
  remind_at : Nat
  notified : Bool
  created_at : Nat
deriving DecidableEq

/-- The persistent store: the three tables of writher.db relevant to the
dispatch/scheduler core, with explicit AUTOINCREMENT counters. -/
structure Store where
  notes : List Note
  appointments : List Appointment
  reminders : List Reminder
  nextNoteId : Nat
  nextApptId : Nat
  nextRemId : Nat
deriving DecidableEq

/-- Python's `s.strip()`: drop leading and trailing whitespace, on the
character list of the string. -/
def stripChars (l : List Char) : List Char :=
  ((l.dropWhile Char.isWhitespace).reverse.dropWhile Char.isWhitespace).reverse

/-- Python's `s.strip().lower()` normalisation, as the character list the
substring / equality tests of database.py operate on. -/
def pyNorm (s : String) : List Char :=
  (stripChars s.data).map Char.toLower

/-- `needle` is a prefix of `hay` (character-wise). -/
def prefixChars : List Char → List Char → Bool
  | [], _ => true
  | _ :: _, [] => false
  | a :: as, b :: bs => a == b && prefixChars as bs

/-- Python's substring test `needle in hay` on strings. -/
def containsSub (needle : List Char) : List Char → Bool
  | [] => prefixChars needle []
  | c :: t => prefixChars needle (c :: t) || containsSub needle t

-- ── Notes ──────────────────────────────────────────────────────────────

/-- database.save_note: INSERT a text note, return the new id. -/
def save_note (content : String) (category : String) (title : String)
    (now : Nat) (s : Store) : Nat × Store :=
  (s.nextNoteId,
   { s with
       notes := s.notes ++
         [{ id := s.nextNoteId, title := title, content := .text content,
            category := category, created_at := now, updated_at := now }],
       nextNoteId := s.nextNoteId + 1 })

/-- database.save_list: INSERT a list note whose content is the
serialized `{item, checked:false}` entries, return the new id. -/
def save_list (title : String) (items : List String) (category : String)
    (now : Nat) (s : Store) : Nat × Store :=
  (s.nextNoteId,
   { s with
       notes := s.notes ++
         [{ id := s.nextNoteId, title := title,
            content := .list (items.map fun it => { item := it, checked := false }),
            category := category, created_at := now, updated_at := now }],
       nextNoteId := s.nextNoteId + 1 })

/-- `SELECT content, note_type FROM notes WHERE id=? ... fetchone()`. -/
def noteById (s : Store) (note_id : Nat) : Option Note :=
  s.notes.find? fun n => n.id == note_id

/-- database.add_to_list: append entries to an existing list note and bump
`updated_at`; returns false when the id is absent or the note is not a
list. -/
def add_to_list (note_id : Nat) (items : List String) (now : Nat)
    (s : Store) : Bool × Store :=
  match noteById s note_id with
  | none => (false, s)
  | some n =>
    match n.content with
    | .text _ => (false, s)
    | .list entries =>
      (true,
       { s with
           notes := s.notes.map fun m =>
             if m.id == note_id then
               { m with
                   content := .list (entries ++ items.map fun it =>
                     { item := it, checked := false }),
                   updated_at := now }
             else m })

/-- The loop body of database.check_item: toggle `checked` of the first
entry whose normalised item text equals `target`, leave the rest as is. -/
def toggleFirst (target : List Char) : List ListEntry → List ListEntry
  | [] => []
  | e :: rest =>
    if pyNorm e.item == target then
      { e with checked := !e.checked } :: rest
    else
      e :: toggleFirst target rest

/-- database.check_item: toggle the checked state of the first matching
entry of a list note (case-insensitive, whitespace-trimmed exact match);
the row is only rewritten (and `updated_at` bumped) when a match was
found. -/
def check_item (note_id : Nat) (item_text : String) (now : Nat)
    (s : Store) : Bool × Store :=
  match noteById s note_id with
  | none => (false, s)
  | some n =>
    match n.content with
    | .text _ => (false, s)
    | .list entries =>
      let target := pyNorm item_text
      if entries.any (fun e => pyNorm e.item == target) then
        (true,
         { s with
             notes := s.notes.map fun m =>
               if m.id == note_id then
                 { m with content := .list (toggleFirst target entries),
                          updated_at := now }
               else m })
      else (false, s)

/-- `SELECT * FROM notes WHERE note_type='list' ORDER BY updated_at DESC`. -/
def listNotesByUpdatedDesc (s : Store) : List Note :=
  (s.notes.filter fun n => n.note_type == "list").insertionSort
    fun a b => b.updated_at ≤ a.updated_at

/-- database.find_list_by_title: first list note (descending
`updated_at`) whose normalised title contains the normalised query as a
substring. -/
def find_list_by_title (title : String) (s : Store) : Option Note :=
  let target := pyNorm title
  (listNotesByUpdatedDesc s).find? fun r => containsSub target (pyNorm r.title)

/-- database.get_all_notes: `SELECT * FROM notes ORDER BY updated_at DESC`. -/
def get_all_notes (s : Store) : List Note :=
  s.notes.insertionSort fun a b => b.updated_at ≤ a.updated_at

-- ── Appointments ───────────────────────────────────────────────────────

/-- database.create_appointment. -/
def create_appointment (title : String) (dt : Nat) (description : String)
    (now : Nat) (s : Store) : Nat × Store :=
  (s.nextApptId,
   { s with
       appointments := s.appointments ++
         [{ id := s.nextApptId, title := title, dt := dt,
            description := description, notified := false, created_at := now }],
       nextApptId := s.nextApptId + 1 })

/-- database.get_upcoming_appointments:
`WHERE notified=0 AND dt<=now+within_minutes AND dt>=now ORDER BY dt ASC`. -/
def get_upcoming_appointments (within_minutes : Nat) (now : Nat)
    (s : Store) : List Appointment :=
  (s.appointments.filter fun a =>
      !a.notified && decide (a.dt ≤ now + within_minutes * 60) && decide (now ≤ a.dt)).insertionSort
    fun a b => a.dt ≤ b.dt

/-- database.get_past_unnotified_appointments:
`WHERE notified=0 AND dt<=now ORDER BY dt ASC`. -/
def get_past_unnotified_appointments (now : Nat) (s : Store) :
    List Appointment :=
  (s.appointments.filter fun a => !a.notified && decide (a.dt ≤ now)).insertionSort
    fun a b => a.dt ≤ b.dt

/-- database.mark_appointment_notified: `UPDATE ... SET notified=1 WHERE id=?`. -/
def mark_appointment_notified (aid : Nat) (s : Store) : Store :=
  { s with
      appointments := s.appointments.map fun a =>
        if a.id == aid then { a with notified := true } else a }

-- ── Reminders ──────────────────────────────────────────────────────────

/-- database.set_reminder. -/
def set_reminder (message : String) (remind_at : Nat) (now : Nat)
    (s : Store) : Nat × Store :=
  (s.nextRemId,
   { s with
       reminders := s.reminders ++
         [{ id := s.nextRemId, message := message, remind_at := remind_at,
            notified := false, created_at := now }],
       nextRemId := s.nextRemId + 1 })

/-- database.get_pending_reminders:
`WHERE notified=0 AND remind_at<=now ORDER BY remind_at ASC`. -/
def get_pending_reminders (now : Nat) (s : Store) : List Reminder :=
  (s.reminders.filter fun r => !r.notified && decide (r.remind_at ≤ now)).insertionSort
    fun a b => a.remind_at ≤ b.remind_at

/-- database.mark_reminder_notified: `UPDATE ... SET notified=1 WHERE id=?`. -/
def mark_reminder_notified (rid : Nat) (s : Store) : Store :=
  { s with
      reminders := s.reminders.map fun r =>
        if r.id == rid then { r with notified := true } else r }

-- ── Localization (locales.py, "en" table — config.LANGUAGE = "en") ─────

def locale_note_saved (nid : Nat) : String :=
  "Note saved (#" ++ toString nid ++ ")"

def locale_list_saved (title : String) (count : Nat) : String :=
  "List \x27" ++ title ++ "\x27 saved (" ++ toString count ++ " items)"

def locale_added_to_list (title : String) : String :=
  "Added to \x27" ++ title ++ "\x27"

def locale_list_not_found (title : String) : String :=
  "List \x27" ++ title ++ "\x27 not found"

def locale_appointment_created (title : String) (dt : Nat) : String :=
  "Appointment created: " ++ title ++ " (" ++ toString dt ++ ")"

def locale_reminder_set (dt : Nat) : String :=
  "Reminder set: " ++ toString dt

def locale_unknown_command (name : String) : String :=
  "Unknown command: " ++ name

def locale_error (detail : String) : String :=
  "Error: " ++ detail

def locale_not_understood : String :=
  "I didn\x27t understand the command"

def locale_default_list_title : String := "List"

def locale_reminder_toast_title : String := "Writher Reminder"

def locale_appointment_toast_title : String := "Writher Appointment"

def locale_appointment_toast_body (title : String) (minutes : Nat) : String :=
  "📅 " ++ title ++ " — in " ++ toString minutes ++ " min"

def locale_appointment_toast_now (title : String) : String :=
  "📅 " ++ title ++ " — now!"

-- ── Command dispatcher (assistant.py _dispatch) ────────────────────────

/-- A JSON argument value as the dispatcher consumes it.  A `time` value
is an ISO datetime string argument, embedded as `Nat` like every other
timestamp (the empty-string default maps to `0`, the minimum). -/
inductive ArgVal where
  | str (s : String)
  | time (t : Nat)
  | strList (l : List String)
deriving DecidableEq

/-- The `arguments` object of a structured call. -/
abbrev Args := List (String × ArgVal)

/-- `args.get(key, dflt)` for a string-valued argument. -/
def getStrArg (args : Args) (key : String) (dflt : String) : String :=
  match args.find? fun kv => kv.1 == key with
  | some (_, .str s) => s
  | _ => dflt

/-- `args.get(key, dflt)` for a datetime-valued argument. -/
def getTimeArg (args : Args) (key : String) (dflt : Nat) : Nat :=
  match args.find? fun kv => kv.1 == key with
  | some (_, .time t) => t
  | _ => dflt

/-- `args.get(key, dflt)` for a string-list argument. -/
def getListArg (args : Args) (key : String) (dflt : List String) : List String :=
  match args.find? fun kv => kv.1 == key with
  | some (_, .strList l) => l
  | _ => dflt

/-- A structured call as returned by the intent resolver. -/
structure FunctionCall where
  function : String
  arguments : Args
deriving DecidableEq

/-- The eight call names recognised by `_dispatch`. -/
def recognizedNames : List String :=
  ["save_note", "save_list", "add_to_list", "create_appointment",
   "set_reminder", "list_notes", "list_appointments", "list_reminders"]

/-- The store interface consumed by the dispatcher; each operation may
raise (a `.error` carries `str(exc)` of the underlying exception, e.g. a
storage failure), which is what the dispatcher's `try/except` catches. -/
structure StoreOps where
  save_note : String → String → String → Nat → Store → Except String (Nat × Store)
  save_list : String → List String → String → Nat → Store → Except String (Nat × Store)
  add_to_list : Nat → List String → Nat → Store → Except String (Bool × Store)
  find_list_by_title : String → Store → Except String (Option Note)
  create_appointment : String → Nat → String → Nat → Store → Except String (Nat × Store)
  set_reminder : String → Nat → Nat → Store → Except String (Nat × Store)

/-- The `try:` body of `_dispatch`: the if/elif chain over the call name,
with the source's argument defaulting. -/
def dispatchCore (ops : StoreOps) (now : Nat) (fc : FunctionCall) (s : Store) :
    Except String (String × Store) :=
  let name := fc.function
  let args := fc.arguments
  if name == "save_note" then do
    let r ← ops.save_note (getStrArg args "content" "")
      (getStrArg args "category" "general") (getStrArg args "title" "") now s
    pure (locale_note_saved r.1, r.2)
  else if name == "save_list" then do
    let r ← ops.save_list (getStrArg args "title" locale_default_list_title)
      (getListArg args "items" []) (getStrArg args "category" "general") now s
    pure (locale_list_saved (getStrArg args "title" "")
      (getListArg args "items" []).length, r.2)
  else if name == "add_to_list" then do
    let existing ← ops.find_list_by_title (getStrArg args "list_title" "") s
    match existing with
    | some n => do
      let r ← ops.add_to_list n.id (getListArg args "items" []) now s
      pure (locale_added_to_list n.title, r.2)
    | none => pure (locale_list_not_found (getStrArg args "list_title" ""), s)
  else if name == "create_appointment" then do
    let r ← ops.create_appointment (getStrArg args "title" "")
      (getTimeArg args "datetime" 0) (getStrArg args "description" "") now s
    pure (locale_appointment_created (getStrArg args "title" "")
      (getTimeArg args "datetime" 0), r.2)
  else if name == "set_reminder" then do
    let r ← ops.set_reminder (getStrArg args "message" "")
      (getTimeArg args "remind_at" 0) now s
    pure (locale_reminder_set (getTimeArg args "remind_at" 0), r.2)
  else if name == "list_notes" then pure ("__show_notes__", s)
  else if name == "list_appointments" then pure ("__show_appointments__", s)
  else if name == "list_reminders" then pure ("__show_reminders__", s)
  else pure (locale_unknown_command name, s)

/-- `_dispatch`: run the body, catching any raised exception and turning
it into the localized error string (a failed storage statement commits
nothing, so the store is unchanged on that path). -/
def dispatchGen (ops : StoreOps) (now : Nat) (fc : FunctionCall) (s : Store) :
    String × Store :=
  match dispatchCore ops now fc s with
  | .ok r => r
  | .error e => (locale_error e, s)

/-- The concrete store operations of database.py (they raise only on
storage-level failure, which is below this model, so they always
succeed here). -/
def pureOps : StoreOps where
  save_note := fun c cat t now s => .ok (save_note c cat t now s)
  save_list := fun t items cat now s => .ok (save_list t items cat now s)
  add_to_list := fun nid items now s => .ok (add_to_list nid items now s)
  find_list_by_title := fun t s => .ok (find_list_by_title t s)
  create_appointment := fun t dt d now s => .ok (create_appointment t dt d now s)
  set_reminder := fun m r now s => .ok (set_reminder m r now s)

/-- `_dispatch` against the real database.py operations. -/
def dispatch (now : Nat) (fc : FunctionCall) (s : Store) : String × Store :=
  dispatchGen pureOps now fc s

-- ── Due-item scheduler (notifier.py ReminderScheduler) ─────────────────

/-- A desktop toast notification (title and body of `_send_toast`). -/
structure Toast where
  title : String
  message : String
deriving DecidableEq

/-- `_check_reminders`: fetch pending reminders, toast each and mark each
notified (the fetched snapshot is not affected by the marks). -/
def checkReminders (now : Nat) (s : Store) : Store × List Toast :=
  let pending := get_pending_reminders now s
  (pending.foldl (fun st r => mark_reminder_notified r.id st) s,
   pending.map fun r => { title := locale_reminder_toast_title, message := r.message })

/-- The toast built for one upcoming appointment: minutes-until-due is
`max 0 (int((dt - now)/60))`, with the "now!" body at zero. -/
def apptToast (now : Nat) (a : Appointment) : Toast :=
  let delta_min := (a.dt - now) / 60
  { title := locale_appointment_toast_title,
    message :=
      if delta_min = 0 then locale_appointment_toast_now a.title
      else locale_appointment_toast_body a.title delta_min }

/-- `_check_appointments`: fetch the appointments due within the lead
window, toast each and mark each notified. -/
def checkAppointments (lead : Nat) (now : Nat) (s : Store) : Store × List Toast :=
  let upcoming := get_upcoming_appointments lead now s
  (upcoming.foldl (fun st a => mark_appointment_notified a.id st) s,
   upcoming.map (apptToast now))

/-- One iteration of `_loop`: reminders phase then appointments phase. -/
def sweep (lead : Nat) (now : Nat) (s : Store) : Store × List Toast :=
  let r1 := checkReminders now s
  let r2 := checkAppointments lead now r1.1
  (r2.1, r1.2 ++ r2.2)

/-- The scheduler run at a given sequence of sweep instants. -/
def runSweeps (lead : Nat) : List Nat → Store → Store × List Toast
  | [], s => (s, [])
  | t :: ts, s =>
    let r1 := sweep lead t s
    let r2 := runSweeps lead ts r1.1
    (r2.1, r1.2 ++ r2.2)

-- ── Serialized concurrent saves (database.py `_lock`) ──────────────────

/-- Every database.py operation runs its whole body under the single
global `_lock`, so any concurrent execution of store operations is an
interleaving of whole operations, i.e. a sequential run in some order.
`runSaveNotes` runs one such serialized order of `save_note` calls; each
call is `(content, category, title, now)`. -/
def runSaveNotes : List (String × String × String × Nat) → Store → List Nat × Store
  | [], s => ([], s)
  | c :: rest, s =>
    let r := save_note c.1 c.2.1 c.2.2.1 c.2.2.2 s
    let rr := runSaveNotes rest r.2
    (r.1 :: rr.1, rr.2)

/-- The note row `save_note (content, category, title, now)` inserts when
it is assigned id `nid`. -/
def mkTextNote (c : String × String × String × Nat) (nid : Nat) : Note :=
  { id := nid, title := c.2.2.1, content := .text c.1, category := c.2.1,
    created_at := c.2.2.2, updated_at := c.2.2.2 }

-- ── Intent resolver (assistant.py _call_ollama) ────────────────────────

/-- A JSON value as decoded from the backend's HTTP response. -/
inductive JsonVal where
  | null
  | bool (b : Bool)
  | num (n : Int)
  | str (s : String)
  | arr (elems : List JsonVal)
  | obj (fields : List (String × JsonVal))

/-- A Python exception escaping the response-extraction code (this part
of `_call_ollama` is outside its `try/except`). -/
inductive PyErr where
  | keyError (k : String)
  | attrError (m : String)
  | typeError
  | indexError
deriving DecidableEq

/-- Python truthiness of a JSON value. -/
def truthy : JsonVal → Bool
  | .null => false
  | .bool b => b
  | .num n => n != 0
  | .str s => !s.isEmpty
  | .arr l => !l.isEmpty
  | .obj l => !l.isEmpty

/-- Python `len(v)`: defined for strings, lists and dicts only. -/
def pyLen : JsonVal → Except PyErr Nat
  | .str s => .ok s.length
  | .arr l => .ok l.length
  | .obj l => .ok l.length
  | _ => .error .typeError

/-- Python `v[0]`. -/
def pyIndex0 : JsonVal → Except PyErr JsonVal
  | .arr (x :: _) => .ok x
  | .arr [] => .error .indexError
  | .str s => if s.isEmpty then .error .indexError else .ok (.str (s.take 1))
  | .obj _ => .error (.keyError "0")
  | _ => .error .typeError

/-- Python `v[k]` with a string key. -/
def pyGetItem (v : JsonVal) (k : String) : Except PyErr JsonVal :=
  match v with
  | .obj fields =>
    match fields.find? fun f => f.1 == k with
    | some f => .ok f.2
    | none => .error (.keyError k)
  | _ => .error .typeError

/-- Python `v.get(k, dflt)`: only dicts have `.get`. -/
def pyGet (v : JsonVal) (k : String) (dflt : JsonVal) : Except PyErr JsonVal :=
  match v with
  | .obj fields =>
    match fields.find? fun f => f.1 == k with
    | some f => .ok f.2
    | none => .ok dflt
  | _ => .error (.attrError "get")

/-- Python `"function" in v`: key test for dicts, element test for lists,
substring test for strings, TypeError otherwise (the caller catches that
TypeError). -/
def pyContainsKey (v : JsonVal) (k : String) : Except Unit Bool :=
  match v with
  | .obj fields => .ok (fields.any fun f => f.1 == k)
  | .arr l => .ok (l.any fun x => match x with | .str s => s == k | _ => false)
  | .str s => .ok (containsSub k.data s.data)
  | _ => .error ()

/-- The fallback branch of `_call_ollama`: parse `message.content` as
JSON and accept it when it is a value containing the key `"function"`;
`loads` models `json.loads` (`none` = parse failure).  JSONDecodeError
and TypeError are caught here, per the source's inner `try/except`. -/
def contentFallback (loads : String → Option JsonVal) (msg : JsonVal) :
    Except PyErr (Option JsonVal) := do
  let cv ← pyGet msg "content" (.str "")
  match cv with
  | .str c0 =>
    let content := c0.trim
    if content.isEmpty then pure none
    else
      match loads content with
      | none => pure none
      | some parsed =>
        match pyContainsKey parsed "function" with
        | .error _ => pure none
        | .ok true => pure (some parsed)
        | .ok false => pure none
  | _ => .error (.attrError "strip")

/-- The response-extraction part of `_call_ollama` (everything after the
HTTP `try/except`): prefer `message.tool_calls[0]`, else fall back to
`message.content`.  A `.error` is a Python exception propagating to the
caller. -/
def extractCall (loads : String → Option JsonVal) (data : JsonVal) :
    Except PyErr (Option JsonVal) := do
  let msg ← pyGet data "message" (.obj [])
  let tool_calls ← pyGet msg "tool_calls" .null
  if truthy tool_calls then
    let n ← pyLen tool_calls
    if n > 0 then
      let tc ← pyIndex0 tool_calls
      let fn ← pyGetItem tc "function"
      let name ← pyGetItem fn "name"
      let args ← pyGet fn "arguments" (.obj [])
      pure (some (.obj [("function", name), ("arguments", args)]))
    else
      contentFallback loads msg
  else
    contentFallback loads msg

/-- `_call_ollama`: the HTTP request/decode step is inside a `try/except`
returning `None` on any failure (network error, non-success status via
`raise_for_status`, body that fails JSON decoding) — modelled by the
`Except String JsonVal` input; the subsequent extraction is not
protected. -/
def call_ollama (loads : String → Option JsonVal) (http : Except String JsonVal) :
    Except PyErr (Option JsonVal) :=
  match http with
  | .error _ => .ok none
  | .ok data => extractCall loads data

-- ── Sorting helper lemmas ──────────────────────────────────────────────

theorem pairwise_sortAsc {α : Type} (f : α → Nat) (l : List α) :
    (l.insertionSort fun a b => f a ≤ f b).Pairwise fun a b => f a ≤ f b := by
  haveI : IsTotal α fun a b => f a ≤ f b := ⟨fun a b => Nat.le_total _ _⟩
  haveI : IsTrans α fun a b => f a ≤ f b := ⟨fun a b c h1 h2 => Nat.le_trans h1 h2⟩
  exact List.sorted_insertionSort _ l

theorem pairwise_sortDesc {α : Type} (f : α → Nat) (l : List α) :
    (l.insertionSort fun a b => f b ≤ f a).Pairwise fun a b => f b ≤ f a := by
  haveI : IsTotal α fun a b => f b ≤ f a := ⟨fun a b => Nat.le_total (f b) (f a)⟩
  haveI : IsTrans α fun a b => f b ≤ f a := ⟨fun a b c h1 h2 => Nat.le_trans h2 h1⟩
  exact List.sorted_insertionSort _ l

-- ── Concrete demonstration data ────────────────────────────────────────

def demoEntries : List ListEntry :=
  [{ item := "Milk", checked := false }, { item := " eggs ", checked := true }]

def demoShopping : Note :=
  { id := 1, title := "Weekend Shopping", content := .list demoEntries,
    category := "shopping", created_at := 10, updated_at := 50 }

def demoTodo : Note :=
  { id := 2, title := "Todo", content := .list [{ item := "pack", checked := false }],
    category := "todo", created_at := 10, updated_at := 80 }

def demoText : Note :=
  { id := 3, title := "Idea", content := .text "write it down",
    category := "general", created_at := 10, updated_at := 90 }

def demoAppt1 : Appointment :=
  { id := 1, title := "Dentist", dt := 700, description := "",
    notified := true, created_at := 5 }

def demoAppt2 : Appointment :=
  { id := 2, title := "Standup", dt := 1600, description := "",
    notified := false, created_at := 5 }

def demoAppt3 : Appointment :=
  { id := 3, title := "Flight", dt := 4600, description := "",
    notified := false, created_at := 5 }

def demoRem : Reminder :=
  { id := 1, message := "Stretch", remind_at := 90, notified := false, created_at := 5 }

def demoStore : Store :=
  { notes := [demoShopping, demoTodo, demoText],
    appointments := [demoAppt1, demoAppt2, demoAppt3],
    reminders := [demoRem],
    nextNoteId := 4, nextApptId := 4, nextRemId := 2 }

-- ── Helper lemmas for notified-flag reasoning ──────────────────────────

theorem mark_reminder_notified_idem (rid : Nat) (s : Store) :
    mark_reminder_notified rid (mark_reminder_notified rid s) =
      mark_reminder_notified rid s := by
  simp only [mark_reminder_notified, List.map_map]
  have h : ((fun r : Reminder => if r.id == rid then { r with notified := true } else r) ∘
      fun r : Reminder => if r.id == rid then { r with notified := true } else r) =
      fun r : Reminder => if r.id == rid then { r with notified := true } else r := by
    funext r
    by_cases hc : r.id == rid <;> simp [Function.comp, hc]
  rw [h]

theorem mark_appointment_notified_idem (aid : Nat) (s : Store) :
    mark_appointment_notified aid (mark_appointment_notified aid s) =
      mark_appointment_notified aid s := by
  simp only [mark_appointment_notified, List.map_map]
  have h : ((fun a : Appointment => if a.id == aid then { a with notified := true } else a) ∘
      fun a : Appointment => if a.id == aid then { a with notified := true } else a) =
      fun a : Appointment => if a.id == aid then { a with notified := true } else a := by
    funext a
    by_cases hc : a.id == aid <;> simp [Function.comp, hc]
  rw [h]

theorem pending_not_notified (now : Nat) (s : Store) :
    ∀ r ∈ get_pending_reminders now s, r.notified = false := by
  intro r hr
  simp only [get_pending_reminders, List.mem_insertionSort, List.mem_filter,
    Bool.and_eq_true, Bool.not_eq_true'] at hr
  exact hr.2.1

theorem upcoming_not_notified (lead now : Nat) (s : Store) :
    ∀ a ∈ get_upcoming_appointments lead now s, a.notified = false := by
  intro a ha
  simp only [get_upcoming_appointments, List.mem_insertionSort, List.mem_filter,
    Bool.and_eq_true, Bool.not_eq_true'] at ha
  exact ha.2.1.1

theorem pending_after_mark (now rid : Nat) (s : Store) :
    ∀ r ∈ get_pending_reminders now (mark_reminder_notified rid s), r.id ≠ rid := by
  intro r hr
  simp only [get_pending_reminders, List.mem_insertionSort, List.mem_filter,
    Bool.and_eq_true, Bool.not_eq_true'] at hr
  obtain ⟨hmem, hnot, _⟩ := hr
  simp only [mark_reminder_notified, List.mem_map] at hmem
  obtain ⟨b, _, hfb⟩ := hmem
  by_cases hc : b.id == rid
  · rw [if_pos hc] at hfb
    cases hfb
    cases hnot
  · rw [if_neg hc] at hfb
    cases hfb
    simpa using hc

theorem upcoming_after_mark (lead now aid : Nat) (s : Store) :
    ∀ a ∈ get_upcoming_appointments lead now (mark_appointment_notified aid s),
      a.id ≠ aid := by
  intro a ha
  simp only [get_upcoming_appointments, List.mem_insertionSort, List.mem_filter,
    Bool.and_eq_true, Bool.not_eq_true'] at ha
  obtain ⟨hmem, ⟨hnot, _⟩, _⟩ := ha
  simp only [mark_appointment_notified, List.mem_map] at hmem
  obtain ⟨b, _, hfb⟩ := hmem
  by_cases hc : b.id == aid
  · rw [if_pos hc] at hfb
    cases hfb
    cases hnot
  · rw [if_neg hc] at hfb
    cases hfb
    simpa using hc

/-- C1: once `mark_reminder_notified` / `mark_appointment_notified` has
run for an id, no later scheduler sweep re-notifies it:
`get_pending_reminders` and `get_upcoming_appointments` only ever return
rows whose notified flag is clear, after marking an id no returned row
carries that id, and both mark operations are idempotent. -/
theorem claim_C1 (now lead rid aid : Nat) (s : Store) :
    (∀ r ∈ get_pending_reminders now s, r.notified = false)
    ∧ (∀ a ∈ get_upcoming_appointments lead now s, a.notified = false)
    ∧ mark_reminder_notified rid (mark_reminder_notified rid s) =
        mark_reminder_notified rid s
    ∧ mark_appointment_notified aid (mark_appointment_notified aid s) =
        mark_appointment_notified aid s
    ∧ (∀ r ∈ get_pending_reminders now (mark_reminder_notified rid s), r.id ≠ rid)
    ∧ (∀ a ∈ get_upcoming_appointments lead now (mark_appointment_notified aid s),
        a.id ≠ aid) :=
  ⟨pending_not_notified now s, upcoming_not_notified lead now s,
   mark_reminder_notified_idem rid s, mark_appointment_notified_idem aid s,
   pending_after_mark now rid s, upcoming_after_mark lead now aid s⟩

/-- Witness for C1: at `now = 100` the demo reminder is pending, so its
flag is provably clear, and double-marking the demo appointment equals
single-marking it. -/
theorem claim_C1_witness :
    demoRem.notified = false
    ∧ mark_appointment_notified 2 (mark_appointment_notified 2 demoStore) =
        mark_appointment_notified 2 demoStore :=
  ⟨(claim_C1 100 15 1 2 demoStore).1 demoRem (by decide),
   (claim_C1 100 15 1 2 demoStore).2.2.2.1⟩

/-- C6: `get_upcoming_appointments within_minutes` returns exactly the
unnotified appointments whose due time lies in the inclusive window
`[now, now + within_minutes]`, ordered ascending by due time. -/
theorem claim_C6 (within_minutes now : Nat) (s : Store) :
    (∀ a, a ∈ get_upcoming_appointments within_minutes now s ↔
        a ∈ s.appointments ∧ a.notified = false ∧ now ≤ a.dt ∧
          a.dt ≤ now + within_minutes * 60)
    ∧ (get_upcoming_appointments within_minutes now s).Pairwise
        fun x y => x.dt ≤ y.dt := by
  constructor
  · intro a
    simp only [get_upcoming_appointments, List.mem_insertionSort, List.mem_filter,
      Bool.and_eq_true, Bool.not_eq_true', decide_eq_true_eq]
    tauto
  · exact pairwise_sortAsc (fun a : Appointment => a.dt) _

/-- Witness for C6 at the demo store, `now = 1000`, lead 15 minutes: the
appointment due at second 1600 is returned; the one due at 4600 is not
(its due time exceeds `1000 + 15⬝60 = 1900`). -/
theorem claim_C6_witness :
    demoAppt2 ∈ get_upcoming_appointments 15 1000 demoStore
    ∧ demoAppt3 ∉ get_upcoming_appointments 15 1000 demoStore :=
  ⟨((claim_C6 15 1000 demoStore).1 demoAppt2).mpr
      ⟨by decide, by decide, by decide, by decide⟩,
   fun h => absurd (((claim_C6 15 1000 demoStore).1 demoAppt3).mp h).2.2.2 (by decide)⟩

-- ── check_item helper lemmas ───────────────────────────────────────────

/-- The entries of the list note a given id resolves to, if any. -/
def noteEntries (s : Store) (nid : Nat) : Option (List ListEntry) :=
  match noteById s nid with
  | some n =>
    match n.content with
    | .list es => some es
    | .text _ => none
  | none => none

theorem toggleFirst_split (target : List Char) (entries : List ListEntry)
    (h : entries.any (fun e => pyNorm e.item == target) = true) :
    ∃ pre e post, entries = pre ++ e :: post
      ∧ (∀ x ∈ pre, (pyNorm x.item == target) = false)
      ∧ (pyNorm e.item == target) = true
      ∧ toggleFirst target entries =
          pre ++ { e with checked := !e.checked } :: post := by
  induction entries with
  | nil => simp at h
  | cons a rest ih =>
    by_cases hc : (pyNorm a.item == target) = true
    · exact ⟨[], a, rest, rfl, by simp, hc, by simp [toggleFirst, hc]⟩
    · have hc' : (pyNorm a.item == target) = false := Bool.eq_false_iff.mpr hc
      have hrest : rest.any (fun e => pyNorm e.item == target) = true := by
        simp only [List.any_cons, Bool.or_eq_true] at h
        exact h.resolve_left hc
      obtain ⟨pre, e, post, he, hpre, hm, ht⟩ := ih hrest
      refine ⟨a :: pre, e, post, by simp [he], ?_, hm, ?_⟩
      · intro x hx
        rcases List.mem_cons.mp hx with h1 | h2
        · rw [h1]; exact hc'
        · exact hpre x h2
      · simp [toggleFirst, hc', ht]

theorem toggleFirst_toggleFirst (target : List Char) (entries : List ListEntry) :
    toggleFirst target (toggleFirst target entries) = entries := by
  induction entries with
  | nil => rfl
  | cons a rest ih =>
    by_cases hc : (pyNorm a.item == target) = true
    · simp [toggleFirst, hc]
    · have hc' : (pyNorm a.item == target) = false := Bool.eq_false_iff.mpr hc
      simp [toggleFirst, hc', ih]

theorem any_toggleFirst (target : List Char) (entries : List ListEntry) :
    (toggleFirst target entries).any (fun e => pyNorm e.item == target) =
      entries.any (fun e => pyNorm e.item == target) := by
  induction entries with
  | nil => rfl
  | cons a rest ih =>
    by_cases hc : (pyNorm a.item == target) = true
    · simp [toggleFirst, hc]
    · have hc' : (pyNorm a.item == target) = false := Bool.eq_false_iff.mpr hc
      simp [toggleFirst, hc', ih]

theorem find?_map_id_preserving {f : Note → Note} (hf : ∀ m, (f m).id = m.id)
    (nid : Nat) :
    ∀ l : List Note,
      (l.map f).find? (fun n => n.id == nid) =
        (l.find? (fun n => n.id == nid)).map f := by
  intro l
  induction l with
  | nil => rfl
  | cons a t ih =>
    simp only [List.map_cons, List.find?_cons]
    by_cases hc : (a.id == nid) = true
    · have hfa : ((f a).id == nid) = true := by rw [hf a]; exact hc
      rw [hfa, hc]
      rfl
    · have hc' : (a.id == nid) = false := Bool.eq_false_iff.mpr hc
      have hfa : ((f a).id == nid) = false := by rw [hf a]; exact hc'
      rw [hfa, hc']
      exact ih

theorem noteById_map_update (s : Store) (nid : Nat) {f : Note → Note}
    (hf : ∀ m, (f m).id = m.id) :
    noteById { s with notes := s.notes.map f } nid = (noteById s nid).map f :=
  find?_map_id_preserving hf nid s.notes

-- ── check_item branch lemmas ───────────────────────────────────────────

theorem check_item_none (note_id : Nat) (txt : String) (now : Nat) (s : Store)
    (h : noteById s note_id = none) :
    check_item note_id txt now s = (false, s) := by
  unfold check_item
  rw [h]

theorem check_item_text (note_id : Nat) (txt : String) (now : Nat) (s : Store)
    (n : Note) (t : String)
    (hn : noteById s note_id = some n) (hc : n.content = .text t) :
    check_item note_id txt now s = (false, s) := by
  simp only [check_item, hn, hc]

theorem check_item_nomatch (note_id : Nat) (txt : String) (now : Nat) (s : Store)
    (n : Note) (entries : List ListEntry)
    (hn : noteById s note_id = some n) (hc : n.content = .list entries)
    (hany : entries.any (fun e => pyNorm e.item == pyNorm txt) = false) :
    check_item note_id txt now s = (false, s) := by
  simp only [check_item, hn, hc]
  simp [hany]

theorem check_item_found (note_id : Nat) (txt : String) (now : Nat) (s : Store)
    (n : Note) (entries : List ListEntry)
    (hn : noteById s note_id = some n) (hc : n.content = .list entries)
    (hany : entries.any (fun e => pyNorm e.item == pyNorm txt) = true) :
    check_item note_id txt now s =
      (true,
       { s with notes := s.notes.map fun m =>
           if m.id == note_id then
             { m with content := .list (toggleFirst (pyNorm txt) entries),
                      updated_at := now }
           else m }) := by
  simp only [check_item, hn, hc]
  simp [hany]

/-- The note update applied by a successful `check_item` preserves ids. -/
theorem check_update_id (note_id now : Nat) (es : List ListEntry) :
    ∀ m : Note,
      ((fun m : Note =>
        if m.id == note_id then
          { m with content := NoteContent.list es, updated_at := now }
        else m) m).id = m.id := by
  intro m
  by_cases hc : (m.id == note_id) = true <;> simp [hc]

theorem check_item_twice (note_id : Nat) (txt : String) (now now2 : Nat)
    (s : Store) :
    noteEntries
        ((check_item note_id txt now2 ((check_item note_id txt now s).2)).2)
        note_id
      = noteEntries s note_id := by
  cases hn : noteById s note_id with
  | none =>
    rw [check_item_none note_id txt now s hn]
    rw [check_item_none note_id txt now2 s hn]
  | some n =>
    cases hcon : n.content with
    | text t =>
      rw [check_item_text note_id txt now s n t hn hcon]
      rw [check_item_text note_id txt now2 s n t hn hcon]
    | list entries =>
      by_cases hany : entries.any (fun e => pyNorm e.item == pyNorm txt) = true
      · have hid : (n.id == note_id) = true := by
          have h := hn
          unfold noteById at h
          have h2 := List.find?_some h
          exact h2
        have hideq : n.id = note_id := by simpa using hid
        rw [check_item_found note_id txt now s n entries hn hcon hany]
        have hn1 : noteById
            { s with notes := s.notes.map fun m =>
                if m.id == note_id then
                  { m with content := NoteContent.list (toggleFirst (pyNorm txt) entries),
                           updated_at := now }
                else m } note_id =
            some { n with
                   content := NoteContent.list (toggleFirst (pyNorm txt) entries),
                   updated_at := now } := by
          rw [noteById_map_update s note_id
            (check_update_id note_id now (toggleFirst (pyNorm txt) entries)), hn]
          simp [hideq]
        have hany2 : (toggleFirst (pyNorm txt) entries).any
            (fun e => pyNorm e.item == pyNorm txt) = true := by
          rw [any_toggleFirst]; exact hany
        rw [check_item_found note_id txt now2 _ _ _ hn1 rfl hany2]
        have hn2 := noteById_map_update
          { s with notes := s.notes.map fun m =>
              if m.id == note_id then
                { m with content := NoteContent.list (toggleFirst (pyNorm txt) entries),
                         updated_at := now }
              else m }
          note_id
          (check_update_id note_id now2
            (toggleFirst (pyNorm txt) (toggleFirst (pyNorm txt) entries)))
        rw [hn1] at hn2
        simp only [noteEntries, hn2, hn, hcon]
        simp [hideq, toggleFirst_toggleFirst]
      · have hany' : entries.any (fun e => pyNorm e.item == pyNorm txt) = false :=
          Bool.eq_false_iff.mpr hany
        rw [check_item_nomatch note_id txt now s n entries hn hcon hany']
        rw [check_item_nomatch note_id txt now2 s n entries hn hcon hany']

/-- C3: `check_item` toggles the checked flag of exactly the first entry
whose trimmed, lowercased item text equals the trimmed, lowercased
argument (everything else untouched) and returns true; it returns false —
leaving the store untouched — when the id is absent, the note is not a
list, or nothing matches; and a second identical call restores the
original entries. -/
theorem claim_C3 (note_id : Nat) (item_text : String) (now now2 : Nat)
    (s : Store) :
    (noteById s note_id = none →
      check_item note_id item_text now s = (false, s))
    ∧ (∀ n t, noteById s note_id = some n → n.content = .text t →
        check_item note_id item_text now s = (false, s))
    ∧ (∀ n entries, noteById s note_id = some n → n.content = .list entries →
        (entries.any (fun e => pyNorm e.item == pyNorm item_text) = false →
          check_item note_id item_text now s = (false, s))
        ∧ (entries.any (fun e => pyNorm e.item == pyNorm item_text) = true →
          ∃ pre e post,
            entries = pre ++ e :: post
            ∧ (∀ x ∈ pre, (pyNorm x.item == pyNorm item_text) = false)
            ∧ (pyNorm e.item == pyNorm item_text) = true
            ∧ check_item note_id item_text now s =
                (true,
                 { s with notes := s.notes.map fun m =>
                     if m.id == note_id then
                       { m with
                           content := .list
                             (pre ++ { e with checked := !e.checked } :: post),
                           updated_at := now }
                     else m })))
    ∧ noteEntries
        ((check_item note_id item_text now2 ((check_item note_id item_text now s).2)).2)
        note_id
      = noteEntries s note_id := by
  refine ⟨check_item_none note_id item_text now s,
    fun n t hn hc => check_item_text note_id item_text now s n t hn hc,
    fun n entries hn hc => ⟨check_item_nomatch note_id item_text now s n entries hn hc, ?_⟩,
    check_item_twice note_id item_text now now2 s⟩
  intro hany
  obtain ⟨pre, e, post, he, hpre, hm, ht⟩ :=
    toggleFirst_split (pyNorm item_text) entries hany
  refine ⟨pre, e, post, he, hpre, hm, ?_⟩
  rw [check_item_found note_id item_text now s n entries hn hc hany, ht]

/-- Witness for C3: on the demo store, toggling "  MILK " on the shopping
list (id 1) succeeds, a text note (id 3) returns false untouched, and two
identical toggles restore the original entries. -/
theorem claim_C3_witness :
    (check_item 1 "  MILK " 200 demoStore).1 = true
    ∧ check_item 3 "Milk" 200 demoStore = (false, demoStore)
    ∧ noteEntries
        ((check_item 1 "  MILK " 201 ((check_item 1 "  MILK " 200 demoStore).2)).2) 1
      = noteEntries demoStore 1 := by
  refine ⟨?_, ?_, (claim_C3 1 "  MILK " 200 201 demoStore).2.2.2⟩
  · obtain ⟨pre, e, post, _, _, _, ht⟩ :=
      ((claim_C3 1 "  MILK " 200 201 demoStore).2.2.1
        demoShopping demoEntries (by decide) (by decide)).2 (by decide)
    rw [ht]
  · exact (claim_C3 3 "Milk" 200 201 demoStore).2.1 demoText "write it down"
      (by decide) (by decide)

/-- C5: `save_list` followed by `get_all_notes` yields a note carrying
the returned id, `note_type = "list"`, and content with exactly one
`{item, checked:false}` entry per input string in input order. -/
theorem claim_C5 (title : String) (items : List String) (category : String)
    (now : Nat) (s : Store) :
    ∃ n ∈ get_all_notes (save_list title items category now s).2,
      n.id = (save_list title items category now s).1
      ∧ n.note_type = "list"
      ∧ n.content = .list (items.map fun it => { item := it, checked := false })
      ∧ n.title = title := by
  refine ⟨{ id := s.nextNoteId, title := title,
            content := .list (items.map fun it => { item := it, checked := false }),
            category := category, created_at := now, updated_at := now },
          ?_, rfl, rfl, rfl, rfl⟩
  simp [get_all_notes, save_list, List.mem_insertionSort]

-- ── find? over a sorted list ───────────────────────────────────────────

theorem find?_first_pairwise {α : Type} {R : α → α → Prop} {p : α → Bool}
    {n : α} :
    ∀ l : List α, l.Pairwise R → l.find? p = some n →
      ∀ m ∈ l, p m = true → m = n ∨ R n m := by
  intro l
  induction l with
  | nil => intro _ h; simp at h
  | cons a t ih =>
    intro hpw hf m hm hp
    by_cases hc : p a = true
    · rw [List.find?_cons_of_pos t hc] at hf
      have han : a = n := by simpa using hf
      rcases List.mem_cons.mp hm with h1 | h2
      · left; rw [h1, han]
      · right; rw [← han]; exact (List.pairwise_cons.mp hpw).1 m h2
    · rw [List.find?_cons_of_neg t hc] at hf
      rcases List.mem_cons.mp hm with h1 | h2
      · exfalso; rw [h1] at hp; exact hc hp
      · exact ih (List.pairwise_cons.mp hpw).2 hf m h2 hp

/-- What a successful `find_list_by_title` lookup guarantees: the hit is
a stored list note matching the query, maximal in `updated_at` among all
matching list notes. -/
theorem find_list_some_spec (title : String) (s : Store) (n : Note)
    (hf : find_list_by_title title s = some n) :
    n ∈ s.notes ∧ n.note_type = "list"
    ∧ containsSub (pyNorm title) (pyNorm n.title) = true
    ∧ ∀ m ∈ s.notes, m.note_type = "list" →
        containsSub (pyNorm title) (pyNorm m.title) = true →
        m.updated_at ≤ n.updated_at := by
  have hf' : (listNotesByUpdatedDesc s).find?
      (fun r => containsSub (pyNorm title) (pyNorm r.title)) = some n := hf
  have hmemL : n ∈ listNotesByUpdatedDesc s := List.mem_of_find?_eq_some hf'
  have hmemF : n ∈ s.notes.filter fun x => x.note_type == "list" := by
    simpa [listNotesByUpdatedDesc, List.mem_insertionSort] using hmemL
  have hmem := List.mem_filter.mp hmemF
  have hp : containsSub (pyNorm title) (pyNorm n.title) = true := by
    have h2 := List.find?_some hf'
    exact h2
  refine ⟨hmem.1, by simpa using hmem.2, hp, ?_⟩
  intro m hmmem hmtype hmcontains
  have hmF : m ∈ s.notes.filter fun x => x.note_type == "list" :=
    List.mem_filter.mpr ⟨hmmem, by simpa using hmtype⟩
  have hmL : m ∈ listNotesByUpdatedDesc s := by
    simpa [listNotesByUpdatedDesc, List.mem_insertionSort] using hmF
  have hpw : (listNotesByUpdatedDesc s).Pairwise
      fun a b => b.updated_at ≤ a.updated_at :=
    pairwise_sortDesc (fun x : Note => x.updated_at) _
  rcases find?_first_pairwise (listNotesByUpdatedDesc s) hpw hf' m hmL
    hmcontains with h1 | h2
  · rw [h1]
  · exact h2

/-- C4: when `find_list_by_title` returns a note, that note is a stored
list note whose normalised title contains the normalised query as a
substring and whose `updated_at` is maximal among all matching list
notes; it returns none exactly when no stored list note's title contains
the query. -/
theorem claim_C4 (title : String) (s : Store) :
    (∀ n, find_list_by_title title s = some n →
      n ∈ s.notes ∧ n.note_type = "list"
      ∧ containsSub (pyNorm title) (pyNorm n.title) = true
      ∧ ∀ m ∈ s.notes, m.note_type = "list" →
          containsSub (pyNorm title) (pyNorm m.title) = true →
          m.updated_at ≤ n.updated_at)
    ∧ (find_list_by_title title s = none →
      ∀ m ∈ s.notes, m.note_type = "list" →
        containsSub (pyNorm title) (pyNorm m.title) = false) := by
  constructor
  · intro n hf
    exact find_list_some_spec title s n hf
  · intro hf m hmmem hmtype
    have hf' : (listNotesByUpdatedDesc s).find?
        (fun r => containsSub (pyNorm title) (pyNorm r.title)) = none := hf
    rw [List.find?_eq_none] at hf'
    have hmF : m ∈ s.notes.filter fun x => x.note_type == "list" :=
      List.mem_filter.mpr ⟨hmmem, by simpa using hmtype⟩
    have hmL : m ∈ listNotesByUpdatedDesc s := by
      simpa [listNotesByUpdatedDesc, List.mem_insertionSort] using hmF
    have := hf' m hmL
    simpa using this

/-- Witness for C4: `find_list_by_title "shop"` on the demo store returns
the "Weekend Shopping" list (case-insensitive substring hit), which is a
stored list note. -/
theorem claim_C4_witness :
    demoShopping ∈ demoStore.notes ∧ demoShopping.note_type = "list"
    ∧ containsSub (pyNorm "shop") (pyNorm demoShopping.title) = true := by
  have h := (claim_C4 "shop" demoStore).1 demoShopping (by decide)
  exact ⟨h.1, h.2.1, h.2.2.1⟩

-- ── C2: dispatcher safety ──────────────────────────────────────────────

/-- C2: for every structured call, under any store-operation behaviour
(including raising), the dispatcher returns a plain string: a call whose
name is not one of the eight recognized names yields the localized
"unknown command" message with the store untouched, and an exception
raised by a store operation is caught and becomes the localized error
message carrying the exception description (with the failed transaction
committing nothing). -/
theorem claim_C2 (ops : StoreOps) (now : Nat) (fc : FunctionCall) (s : Store) :
    (fc.function ∉ recognizedNames →
      dispatchGen ops now fc s = (locale_unknown_command fc.function, s))
    ∧ (∀ e, dispatchCore ops now fc s = .error e →
        dispatchGen ops now fc s = (locale_error e, s)) := by
  constructor
  · intro h
    simp only [recognizedNames, List.mem_cons, List.not_mem_nil, or_false,
      not_or] at h
    obtain ⟨h1, h2, h3, h4, h5, h6, h7, h8⟩ := h
    have b1 : (fc.function == "save_note") = false := by simpa using h1
    have b2 : (fc.function == "save_list") = false := by simpa using h2
    have b3 : (fc.function == "add_to_list") = false := by simpa using h3
    have b4 : (fc.function == "create_appointment") = false := by simpa using h4
    have b5 : (fc.function == "set_reminder") = false := by simpa using h5
    have b6 : (fc.function == "list_notes") = false := by simpa using h6
    have b7 : (fc.function == "list_appointments") = false := by simpa using h7
    have b8 : (fc.function == "list_reminders") = false := by simpa using h8
    simp [dispatchGen, dispatchCore, b1, b2, b3, b4, b5, b6, b7, b8]
    rfl
  · intro e he
    simp [dispatchGen, he]

/-- A store whose save_note raises, modelling a storage-level failure. -/
def failOps : StoreOps :=
  { pureOps with save_note := fun _ _ _ _ _ => .error "database is locked" }

/-- Witness for C2: a raising save_note is converted to the localized
error string, and an unrecognized call name yields the localized unknown
command message, both leaving the demo store unchanged. -/
theorem claim_C2_witness :
    dispatchGen failOps 0 { function := "save_note", arguments := [] } demoStore
      = (locale_error "database is locked", demoStore)
    ∧ dispatchGen pureOps 0 { function := "frobnicate", arguments := [] } demoStore
      = (locale_unknown_command "frobnicate", demoStore) :=
  ⟨(claim_C2 failOps 0 { function := "save_note", arguments := [] } demoStore).2
      "database is locked" (by rfl),
   (claim_C2 pureOps 0 { function := "frobnicate", arguments := [] } demoStore).1
      (by decide)⟩

-- ── C8: serialized save_note runs ──────────────────────────────────────

/-- C8: every store operation runs entirely inside the single global
lock, so any concurrent execution of N `save_note` calls is a serialized
run in some order; in every such run the returned ids are exactly the
consecutive block starting at the current AUTOINCREMENT counter (hence
pairwise distinct and monotonically increasing in execution order), and
every call's note is appended to the store — no lost writes. -/
theorem claim_C8 (calls : List (String × String × String × Nat)) (s : Store) :
    (runSaveNotes calls s).1 = List.range' s.nextNoteId calls.length
    ∧ (runSaveNotes calls s).2.notes =
        s.notes ++ List.zipWith mkTextNote calls (List.range' s.nextNoteId calls.length)
    ∧ (runSaveNotes calls s).1.Pairwise (· < ·)
    ∧ (runSaveNotes calls s).1.Nodup := by
  have main : ∀ (cs : List (String × String × String × Nat)) (st : Store),
      (runSaveNotes cs st).1 = List.range' st.nextNoteId cs.length
      ∧ (runSaveNotes cs st).2.notes =
          st.notes ++ List.zipWith mkTextNote cs (List.range' st.nextNoteId cs.length) := by
    intro cs
    induction cs with
    | nil => intro st; simp [runSaveNotes]
    | cons c rest ih =>
      intro st
      obtain ⟨ih1, ih2⟩ := ih
        { st with
            notes := st.notes ++ [mkTextNote c st.nextNoteId],
            nextNoteId := st.nextNoteId + 1 }
      constructor
      · simp only [runSaveNotes, List.length_cons, List.range'_succ]
        rw [show (save_note c.1 c.2.1 c.2.2.1 c.2.2.2 st).1 = st.nextNoteId from rfl]
        refine congrArg (st.nextNoteId :: ·) ?_
        exact ih1
      · simp only [runSaveNotes, List.length_cons, List.range'_succ]
        rw [show (save_note c.1 c.2.1 c.2.2.1 c.2.2.2 st).2 =
          { st with
              notes := st.notes ++ [mkTextNote c st.nextNoteId],
              nextNoteId := st.nextNoteId + 1 } from rfl]
        rw [ih2]
        simp [List.zipWith, List.append_assoc]
  obtain ⟨h1, h2⟩ := main calls s
  refine ⟨h1, h2, ?_, ?_⟩
  · rw [h1]
    exact List.pairwise_lt_range' s.nextNoteId calls.length
  · rw [h1]
    exact (List.pairwise_lt_range' s.nextNoteId calls.length).imp Nat.ne_of_lt

-- ── C9: scheduler sweep preservation lemmas ────────────────────────────

theorem mark_appt_preserves (aid : Nat) (s : Store) (a : Appointment)
    (ha : a ∈ s.appointments) (hne : a.id ≠ aid) :
    a ∈ (mark_appointment_notified aid s).appointments := by
  simp only [mark_appointment_notified]
  refine List.mem_map.mpr ⟨a, ha, ?_⟩
  have hb : (a.id == aid) = false := by simpa using hne
  simp [hb]

theorem mark_appt_ids (aid : Nat) (s : Store) :
    (mark_appointment_notified aid s).appointments.map (fun x => x.id) =
      s.appointments.map (fun x => x.id) := by
  simp only [mark_appointment_notified, List.map_map]
  have h : ((fun x : Appointment => x.id) ∘
      fun a : Appointment => if a.id == aid then { a with notified := true } else a) =
      fun x : Appointment => x.id := by
    funext a
    by_cases hc : (a.id == aid) = true <;> simp [Function.comp, hc]
  rw [h]

theorem foldl_mark_mem (l : List Appointment) (st : Store) (a : Appointment)
    (ha : a ∈ st.appointments) (hl : ∀ b ∈ l, b.id ≠ a.id) :
    a ∈ (l.foldl (fun s b => mark_appointment_notified b.id s) st).appointments := by
  induction l generalizing st with
  | nil => simpa [List.foldl] using ha
  | cons b t ih =>
    simp only [List.foldl_cons]
    refine ih (mark_appointment_notified b.id st) ?_ ?_
    · exact mark_appt_preserves b.id st a ha
        (fun he => hl b (List.mem_cons_self b t) he.symm)
    · intro c hc
      exact hl c (List.mem_cons_of_mem b hc)

theorem foldl_mark_ids (l : List Appointment) (st : Store) :
    ((l.foldl (fun s b => mark_appointment_notified b.id s) st).appointments.map
        (fun x => x.id)) =
      st.appointments.map (fun x => x.id) := by
  induction l generalizing st with
  | nil => rfl
  | cons b t ih =>
    simp only [List.foldl_cons]
    rw [ih, mark_appt_ids]

theorem foldl_markRem_appointments (l : List Reminder) (st : Store) :
    (l.foldl (fun s r => mark_reminder_notified r.id s) st).appointments =
      st.appointments := by
  induction l generalizing st with
  | nil => rfl
  | cons r t ih =>
    simp only [List.foldl_cons]
    rw [ih]
    rfl

theorem upcoming_mem (lead now : Nat) (s : Store) (b : Appointment)
    (hb : b ∈ get_upcoming_appointments lead now s) :
    b ∈ s.appointments ∧ b.notified = false ∧ now ≤ b.dt ∧
      b.dt ≤ now + lead * 60 := by
  simp only [get_upcoming_appointments, List.mem_insertionSort, List.mem_filter,
    Bool.and_eq_true, Bool.not_eq_true', decide_eq_true_eq] at hb
  tauto

theorem sweep_preserves (lead t : Nat) (s : Store) (a : Appointment)
    (ha : a ∈ s.appointments)
    (hdist : (s.appointments.map (fun x => x.id)).Nodup)
    (hout : a.dt < t ∨ t + lead * 60 < a.dt) :
    a ∈ (sweep lead t s).1.appointments
    ∧ (sweep lead t s).1.appointments.map (fun x => x.id) =
        s.appointments.map (fun x => x.id) := by
  have hrem : (checkReminders t s).1.appointments = s.appointments :=
    foldl_markRem_appointments (get_pending_reminders t s) s
  have hup : get_upcoming_appointments lead t (checkReminders t s).1 =
      get_upcoming_appointments lead t s := by
    simp only [get_upcoming_appointments, hrem]
  have hsw : (sweep lead t s).1 =
      ((get_upcoming_appointments lead t s).foldl
        (fun st b => mark_appointment_notified b.id st) (checkReminders t s).1) := by
    simp only [sweep, checkAppointments, hup]
  constructor
  · rw [hsw]
    refine foldl_mark_mem _ _ a (by rw [hrem]; exact ha) ?_
    intro b hb hbid
    obtain ⟨hbmem, _, hwin1, hwin2⟩ := upcoming_mem lead t s b hb
    have hba : b = a :=
      List.inj_on_of_nodup_map hdist hbmem ha hbid
    rcases hout with h | h
    · rw [hba] at hwin1; omega
    · rw [hba] at hwin2; omega
  · rw [hsw, foldl_mark_ids, hrem]

/-- C9: the scheduler sweep consults only `get_upcoming_appointments`
(whose window starts at the sweep's `now`), never
`get_past_unnotified_appointments`; hence an unnotified appointment whose
due time lies outside every sweep's window — in particular one whose due
time passes between sweeps — is never marked and keeps `notified = false`
forever. -/
theorem claim_C9 (lead : Nat) (ts : List Nat) (s : Store) (a : Appointment)
    (ha : a ∈ s.appointments) (hnot : a.notified = false)
    (hdist : (s.appointments.map (fun x => x.id)).Nodup)
    (hout : ∀ t ∈ ts, a.dt < t ∨ t + lead * 60 < a.dt) :
    a ∈ (runSweeps lead ts s).1.appointments
    ∧ (∀ b ∈ (runSweeps lead ts s).1.appointments, b.id = a.id →
        b.notified = false) := by
  have main : ∀ (ts' : List Nat) (st : Store), a ∈ st.appointments →
      (st.appointments.map (fun x => x.id)).Nodup →
      (∀ t ∈ ts', a.dt < t ∨ t + lead * 60 < a.dt) →
      a ∈ (runSweeps lead ts' st).1.appointments
      ∧ ((runSweeps lead ts' st).1.appointments.map (fun x => x.id)).Nodup := by
    intro ts'
    induction ts' with
    | nil => intro st h1 h2 _; exact ⟨h1, h2⟩
    | cons t rest ih =>
      intro st h1 h2 h3
      obtain ⟨hmem, hids⟩ := sweep_preserves lead t st a h1 h2
        (h3 t (List.mem_cons_self t rest))
      have hnodup : ((sweep lead t st).1.appointments.map (fun x => x.id)).Nodup := by
        rw [hids]; exact h2
      obtain ⟨r1, r2⟩ := ih (sweep lead t st).1 hmem hnodup
        (fun u hu => h3 u (List.mem_cons_of_mem t hu))
      exact ⟨r1, r2⟩
  obtain ⟨hmem, hids⟩ := main ts s ha hdist hout
  refine ⟨hmem, ?_⟩
  intro b hb hbid
  have hba : b = a := List.inj_on_of_nodup_map hids hb hmem hbid
  rw [hba]
  exact hnot

/-- Witness for C9: the demo appointment due at second 1600 is missed by
sweeps at 2000 and 3000 (both strictly after its due time) and survives
them unnotified. -/
theorem claim_C9_witness :
    demoAppt2 ∈ (runSweeps 15 [2000, 3000] demoStore).1.appointments :=
  (claim_C9 15 [2000, 3000] demoStore demoAppt2
    (by decide) (by decide) (by decide) (by decide)).1

-- ── C10: empty list_title matches every list ───────────────────────────

theorem containsSub_nil (hay : List Char) : containsSub [] hay = true := by
  cases hay with
  | nil => rfl
  | cons c t => simp [containsSub, prefixChars]

theorem noteById_of_mem (s : Store) (m : Note) (hm : m ∈ s.notes)
    (hids : (s.notes.map (fun x => x.id)).Nodup) :
    noteById s m.id = some m := by
  unfold noteById
  cases hfind : s.notes.find? (fun n => n.id == m.id) with
  | none =>
    rw [List.find?_eq_none] at hfind
    exact absurd (by simp : ((fun n : Note => n.id == m.id) m) = true)
      (by simpa using hfind m hm)
  | some x =>
    have hx := List.find?_some hfind
    have hxm : x ∈ s.notes := List.mem_of_find?_eq_some hfind
    have hxid : x.id = m.id := by simpa using hx
    have hxe : x = m := List.inj_on_of_nodup_map hids hxm hm hxid
    rw [hxe]

/-- C10: when the store holds at least one list note and the ids are
distinct (the primary-key invariant), dispatching an `add_to_list` call
whose `list_title` argument is missing or empty resolves — via the
empty-substring match — to the most-recently-updated list note, appends
the items to it, and returns the "added to list" message, never the
"list not found" message. -/
theorem claim_C10 (now : Nat) (args : Args) (s : Store)
    (hsome : ∃ n ∈ s.notes, n.note_type = "list")
    (hmissing : getStrArg args "list_title" "" = "")
    (hids : (s.notes.map (fun x => x.id)).Nodup) :
    ∃ m, find_list_by_title "" s = some m
      ∧ m.note_type = "list"
      ∧ (∀ b ∈ s.notes, b.note_type = "list" → b.updated_at ≤ m.updated_at)
      ∧ dispatch now { function := "add_to_list", arguments := args } s =
          (locale_added_to_list m.title,
           (add_to_list m.id (getListArg args "items" []) now s).2)
      ∧ (add_to_list m.id (getListArg args "items" []) now s).1 = true := by
  obtain ⟨n0, hn0mem, hn0type⟩ := hsome
  have hpred : ∀ r : Note, containsSub (pyNorm "") (pyNorm r.title) = true := by
    intro r
    rw [show pyNorm "" = [] from rfl]
    exact containsSub_nil _
  have hn0L : n0 ∈ listNotesByUpdatedDesc s := by
    simp only [listNotesByUpdatedDesc, List.mem_insertionSort, List.mem_filter]
    exact ⟨hn0mem, by simpa using hn0type⟩
  obtain ⟨m, hfind⟩ : ∃ m, find_list_by_title "" s = some m := by
    unfold find_list_by_title
    cases hL : listNotesByUpdatedDesc s with
    | nil => rw [hL] at hn0L; cases hn0L
    | cons hd tl => exact ⟨hd, by simp [hpred]⟩
  obtain ⟨hmmem, hmtype, _, hmax0⟩ := find_list_some_spec "" s m hfind
  have hmax : ∀ b ∈ s.notes, b.note_type = "list" → b.updated_at ≤ m.updated_at :=
    fun b hb hbt => hmax0 b hb hbt (hpred b)
  have hnoteById : noteById s m.id = some m := noteById_of_mem s m hmmem hids
  obtain ⟨es, hes⟩ : ∃ es, m.content = .list es := by
    cases hc : m.content with
    | text t =>
      exfalso
      simp [Note.note_type, hc] at hmtype
    | list es => exact ⟨es, rfl⟩
  have haddtrue : (add_to_list m.id (getListArg args "items" []) now s).1 = true := by
    simp only [add_to_list, hnoteById, hes]
  have c1 : (("add_to_list" : String) == "save_note") = false := by decide
  have c2 : (("add_to_list" : String) == "save_list") = false := by decide
  have c3 : (("add_to_list" : String) == "add_to_list") = true := by decide
  have hdisp : dispatch now { function := "add_to_list", arguments := args } s =
      (locale_added_to_list m.title,
       (add_to_list m.id (getListArg args "items" []) now s).2) := by
    simp only [dispatch, dispatchGen, dispatchCore, c1, c2, c3, Bool.false_eq_true,
      if_false, if_true, hmissing, pureOps, hfind]
    rfl
  exact ⟨m, hfind, hmtype, hmax, hdisp, haddtrue⟩

/-- Witness for C10: on the demo store, an `add_to_list` call with no
`list_title` argument appends to the "Todo" list (the most recently
updated list note) and reports success. -/
theorem claim_C10_witness :
    dispatch 300
        { function := "add_to_list",
          arguments := [("items", ArgVal.strList ["bread"])] } demoStore
      = (locale_added_to_list "Todo",
         (add_to_list 2 ["bread"] 300 demoStore).2) := by
  obtain ⟨m, hfind, _, _, hdisp, _⟩ :=
    claim_C10 300 [("items", ArgVal.strList ["bread"])] demoStore
      ⟨demoTodo, by decide, by decide⟩ (by decide) (by decide)
  have h2 : find_list_by_title "" demoStore = some demoTodo := by decide
  rw [h2] at hfind
  have hm : demoTodo = m := Option.some.inj hfind
  rw [← hm] at hdisp
  simpa using hdisp

-- ── C7: resolver failure handling ──────────────────────────────────────

/-- The malformed backend response of the C7 counterexample: a
`tool_calls` entry that lacks the `"function"` key. -/
def badResponse : JsonVal :=
  .obj [("message", .obj [("tool_calls", .arr [.obj []])])]

/-- C7 counterexample: on a decoded response whose first `tool_calls`
entry lacks the expected shape, `_call_ollama` raises a KeyError that
propagates to its caller instead of returning "no call resolved" — the
response-extraction code sits outside the `try/except` that guards only
the HTTP request and body decode. -/
theorem claim_C7_counterexample :
    call_ollama (fun _ => none) (.ok badResponse) =
      .error (.keyError "function") := rfl

/-- C7 amended: the resolver returns none — never raising — for every
failure of the HTTP step itself (network error, non-success status via
`raise_for_status`, undecodable body), and for a well-shaped message
whose textual content fails JSON parsing; but a decoded response whose
`message` or `tool_calls` entries have an unexpected shape raises to the
caller (see the counterexample). -/
theorem claim_C7_amended (loads : String → Option JsonVal) (e c : String) :
    call_ollama loads (.error e) = .ok none
    ∧ call_ollama (fun _ => none)
        (.ok (.obj [("message", .obj [("content", .str c)])])) = .ok none := by
  refine ⟨rfl, ?_⟩
  show extractCall (fun _ => none)
    (.obj [("message", .obj [("content", .str c)])]) = .ok none
  unfold extractCall contentFallback
  simp only [pyGet, truthy]
  by_cases hc : c.trim.isEmpty <;> simp [hc, Bind.bind, Except.bind, pure, Except.pure]

end Writher
